import Mathlib

/-!
Verification development for the Korea market dashboard repository
(four near-duplicate Streamlit dashboards fetching KOSPI, USD/KRW,
US Fed Funds and the BOK base rate, aligning them onto a daily calendar
and optionally rebasing them to 100).

Dates are modelled as natural-number day stamps, values as rationals, and
the pandas missing marker (NaN) as `none`.  A pandas `Series` is a name
together with an ordered date-to-value association list.  HTTP interaction
is modelled by a `Net` oracle passed to each adapter: `Net.fail` stands for
a raised connection error or timeout, `Net.resp status body` for a
completed response; a `raise_for_status` call fails exactly when the
status is at least 400.  Adapters that wrap their body in `try/except` are
total functions into `Series`; the one adapter with no handler
(`fetch_fred_csv` in korea_market_dashboard_bokapi.py) returns an
`Except AdapterErr Series`, the `error` case being a propagated exception.
-/

/-- A pandas Series: display name plus date-indexed values (`none` = NaN). -/
structure Series where
  name : String
  data : List (Nat × Option ℚ)
deriving DecidableEq, Repr

/-- `s.dropna()`: the rows whose value is not missing. -/
def dropnaS (s : Series) : List (Nat × Option ℚ) :=
  s.data.filter (fun p => p.2.isSome)

/-- `not s.empty and s.dropna().size > 0`: the acceptance test used by
`load_us_fed_rate` for each fallback candidate. -/
def usable (s : Series) : Bool :=
  !s.data.isEmpty && !(dropnaS s).isEmpty

/-- `s.name = nm` (pandas rename by assignment). -/
def rename (s : Series) (nm : String) : Series :=
  ⟨nm, s.data⟩

def fedFundsName : String := "US Fed Funds (%)"

def bokRateName : String := "BOK Base Rate (%)"

/-- `s.reindex(idx)`: one entry per requested date, `none` where the series
has no observation at exactly that date. -/
def reindexS (s : Series) (idx : List Nat) : List (Option ℚ) :=
  idx.map (fun d => (s.data.lookup d).join)

/-- Helper for `ffill`: carries the last seen non-missing value. -/
def ffillAux : Option ℚ → List (Option ℚ) → List (Option ℚ)
  | _, [] => []
  | acc, none :: rest => acc :: ffillAux acc rest
  | _, some v :: rest => some v :: ffillAux (some v) rest

/-- pandas `Series.ffill()`: each missing entry takes the most recent
earlier non-missing value, if any. -/
def ffill (l : List (Option ℚ)) : List (Option ℚ) :=
  ffillAux none l

/-- First non-missing value of a list of cells, if any. -/
def firstSomeL : List (Option ℚ) → Option ℚ
  | [] => none
  | none :: rest => firstSomeL rest
  | some v :: _ => some v

/-- pandas `Series.bfill()`: each missing entry takes the next later
non-missing value, if any. -/
def bfill : List (Option ℚ) → List (Option ℚ)
  | [] => []
  | none :: rest => firstSomeL rest :: bfill rest
  | some v :: rest => some v :: bfill rest

/-- Last non-missing value of a list of cells, defaulting to `acc`. -/
def lastSomeD : Option ℚ → List (Option ℚ) → Option ℚ
  | acc, [] => acc
  | acc, none :: rest => lastSomeD acc rest
  | _, some v :: rest => lastSomeD (some v) rest

/-- Last non-missing value of a list of cells, if any: the value a
forward-fill carries at the end of that prefix. -/
def lastSome (l : List (Option ℚ)) : Option ℚ :=
  lastSomeD none l

/-- `series.reindex(idx).ffill()`: the forward-fill-only alignment used for
the KOSPI, USD/KRW and BOK base-rate columns in every dashboard, and for
the US Fed Funds column in korea_market_dashboard_bokapi.py (line 128). -/
def alignFfill (s : Series) (idx : List Nat) : List (Option ℚ) :=
  ffill (reindexS s idx)

/-- `series.reindex(idx).ffill().bfill()`: the alignment used for the
US Fed Funds column in korea_market_dashboard.py (line 206) and
korea_market_dashboard_bokapi_v2.py (lines 219-220). -/
def alignBoth (s : Series) (idx : List Nat) : List (Option ℚ) :=
  bfill (ffill (reindexS s idx))

/-- A pandas DataFrame restricted to what the dashboards use: an ordered
association of column names to equally long cell lists. -/
abbrev Frame := List (String × List (Option ℚ))

/-- `col.dropna().iloc[0]` when it exists: the first non-missing cell. -/
def firstSome (col : List (Option ℚ)) : Option ℚ :=
  (col.filterMap id).head?

/-- One iteration of the normalization loop
(`fv = df[c].dropna().iloc[0]; if fv != 0: df[c] = df[c] / fv * 100.0`).
`error` is the `IndexError` raised by `.iloc[0]` on an all-missing column. -/
def rebaseCol (col : List (Option ℚ)) : Except Unit (List (Option ℚ)) :=
  match firstSome col with
  | none => Except.error ()
  | some fv =>
      Except.ok (if fv = 0 then col else col.map (Option.map (fun x => x / fv * 100)))

/-- The normalization loop over every column of a frame, as in
korea_market_dashboard_bokapi.py lines 142-146 and
korea_market_dashboard_bokapi_v2.py lines 241-245 (`plot_df`), and over
`left_df` in korea_market_dashboard.py lines 217-221.  Columns are
processed in order and a raised `IndexError` aborts the loop. -/
def normalizeAll : Frame → Except Unit Frame
  | [] => Except.ok []
  | (nm, col) :: rest =>
    match rebaseCol col with
    | Except.error e => Except.error e
    | Except.ok col2 =>
      match normalizeAll rest with
      | Except.error e => Except.error e
      | Except.ok rest2 => Except.ok ((nm, col2) :: rest2)

/-- Whether an `Except` carries a result. -/
def okB {ε α : Type} : Except ε α → Bool
  | Except.ok _ => true
  | Except.error _ => false

/-- `df[cols]`: the listed columns of a frame, in the listed order. -/
def selectCols (df : Frame) (cols : List String) : Frame :=
  cols.filterMap (fun c => (df.lookup c).map (fun col => (c, col)))

/-- pandas `DataFrame.empty`: no columns, or no rows. -/
def frameEmpty (f : Frame) : Bool :=
  f.all (fun c => c.2.isEmpty)

/-- korea_market_dashboard.py lines 214-224 and 241: build `left_df` from
the KOSPI / USD-KRW columns, normalize it when requested, and read the
right-axis frame `df[rates_cols]` from the untouched `df`. -/
def plot_frames (normalize_left : Bool) (df : Frame) (rates_cols : List String) :
    Except Unit (Frame × Frame) :=
  let left_cols := ["KOSPI", "USD/KRW"].filter (fun c => (df.lookup c).isSome)
  let left_df := selectCols df left_cols
  if normalize_left ∧ ¬ frameEmpty left_df = true then
    match normalizeAll left_df with
    | Except.error e => Except.error e
    | Except.ok l => Except.ok (l, selectCols df rates_cols)
  else Except.ok (left_df, selectCols df rates_cols)

/-- A column added only under a condition (`if not s.empty: df[c] = ...`). -/
def colIf (c : Bool) (nm : String) (v : List (Option ℚ)) : Frame :=
  if c then [(nm, v)] else []

/-- korea_market_dashboard.py lines 195-212: the daily frame.  KOSPI,
USD/KRW and the BOK base rate are added whenever their raw series is
non-empty; the US Fed Funds column additionally requires the
forward-and-backward-filled column to contain a non-missing value. -/
def buildFrame (kospi usdkrw effr_raw bok : Series) (idx : List Nat) : Frame :=
  colIf (!kospi.data.isEmpty) "KOSPI" (alignFfill kospi idx) ++
  colIf (!usdkrw.data.isEmpty) "USD/KRW" (alignFfill usdkrw idx) ++
  colIf (!effr_raw.data.isEmpty && (alignBoth effr_raw idx).any (fun o => o.isSome))
    fedFundsName (alignBoth effr_raw idx) ++
  colIf (!bok.data.isEmpty) bokRateName (alignFfill bok idx)

/-- Outcome of one `requests.get` call: a raised connection error or
timeout, or a completed response with an HTTP status and a body. -/
inductive Net (β : Type) where
  | fail
  | resp (status : Nat) (body : β)
deriving DecidableEq

/-- Body of a fredgraph CSV download: unparseable text (a `read_csv`
exception), or a table of named string columns. -/
inductive CsvBody where
  | badCsv
  | table (cols : List (String × List String))
deriving DecidableEq

/-- Body of a FRED API response: `r.json()` raising, or a JSON object
whose observation list holds (date string, value string) pairs, the
value defaulting to "." as in `o.get("value", ".")`. -/
inductive FredApiBody where
  | badJson
  | json (observations : List (String × String))
deriving DecidableEq

/-- One row of an ECOS response, with the three alternative key spellings
for the timestamp and for the value. -/
structure BokRow where
  TIME : Option String
  time : Option String
  TIME_PERIOD : Option String
  DATA_VALUE : Option String
  data_value : Option String
  OBS_VALUE : Option String
deriving DecidableEq

/-- Body of an ECOS response: `r.json()` raising, or an object carrying
up to three alternative container keys, each with its row list
(`(container or \x7b\x7d).get("row", [])` flattened into one option). -/
inductive BokBody where
  | badJson
  | json (StatisticSearch statisticSearch Statisticsearch : Option (List BokRow))
deriving DecidableEq

/-- Errors propagated out of an adapter that has no exception handler. -/
inductive AdapterErr where
  | netError
  | httpError (code : Nat)
  | parseError
deriving DecidableEq

/-- The numeric value of a decimal digit character, if it is one. -/
def charDigit (c : Char) : Option Nat :=
  if 48 ≤ c.toNat ∧ c.toNat ≤ 57 then some (c.toNat - 48) else none

/-- Read a run of decimal digits left to right. -/
def digitsToNat (acc : Nat) : List Char → Option Nat
  | [] => some acc
  | c :: rest =>
    match charDigit c with
    | some d => digitsToNat (acc * 10 + d) rest
    | none => none

/-- `int(x)` on a non-negative digit string. -/
def digitsOf (l : List Char) : Option Nat :=
  if l.isEmpty then none else digitsToNat 0 l

/-- `int(x)` on a decimal string with an optional leading minus sign. -/
def intOf : List Char → Option Int
  | '-' :: rest => (digitsOf rest).map (fun n => -(n : Int))
  | l => (digitsOf l).map (fun n => (n : Int))

/-- Split a character list on the decimal-point character. -/
def splitDot : List Char → List (List Char)
  | [] => [[]]
  | c :: rest =>
    let r := splitDot rest
    if c = '.' then [] :: r
    else
      match r with
      | h :: t => (c :: h) :: t
      | [] => [[c]]

/-- `pd.to_numeric(x, errors="coerce")` / `float(x)` on a cell, with
`none` standing for NaN (or, for `float`, a raised `ValueError`): an
optional sign, an integer part and an optional fractional part. -/
def parseRat (s : String) : Option ℚ :=
  match splitDot s.data with
  | [a] => (intOf a).map (fun n => (n : ℚ))
  | [a, b] =>
    match intOf a, digitsOf b with
    | some ai, some bn =>
      let frac : ℚ := (bn : ℚ) / ((10 : ℚ) ^ b.length)
      some (if ai < 0 then (ai : ℚ) - frac else (ai : ℚ) + frac)
    | _, _ => none
  | _ => none

/-- `pd.to_datetime` over a list of date strings (day stamps here):
all-or-nothing, a single unparseable date raising for the whole list. -/
def parseDates (ds : List String) : Option (List Nat) :=
  ds.mapM (fun d => digitsOf d.data)

/-- `int(str(t)[:4])`, `int(str(t)[4:6])` and the `dt.date(y, m, 1)`
validity requirement of the ECOS row parser. -/
def parseYM (t : String) : Option (Nat × Nat) :=
  match digitsOf (t.data.take 4), digitsOf ((t.data.drop 4).take 2) with
  | some y, some m => if 1 ≤ y ∧ 1 ≤ m ∧ m ≤ 12 then some (y, m) else none
  | _, _ => none

def daysInMonth (y m : Nat) : Nat :=
  if m = 2 then (if y % 4 = 0 ∧ (y % 100 ≠ 0 ∨ y % 400 = 0) then 29 else 28)
  else if m = 4 ∨ m = 6 ∨ m = 9 ∨ m = 11 then 30 else 31

/-- `dt.date(y, m, 1) + relativedelta(months=1) - relativedelta(days=1)`,
encoded as the stamp y*10000 + m*100 + last-day-of-month. -/
def monthEnd (y m : Nat) : Nat :=
  y * 10000 + m * 100 + daysInMonth y m

/-- Python `a or b` on optional strings: an absent or empty first operand
falls through to the second. -/
def pyOrStr (a b : Option String) : Option String :=
  match a with
  | some s => if s = "" then b else some s
  | none => b

/-- The body of the ECOS row loop: pick the first present key alias for the
timestamp and for the value, skip absent / empty / placeholder values, and
skip rows whose `int`, `date` or `float` conversion raises. -/
def parseBokRow (r : BokRow) : Option (Nat × Option ℚ) :=
  let t := pyOrStr r.TIME (pyOrStr r.time r.TIME_PERIOD)
  let v := pyOrStr r.DATA_VALUE (pyOrStr r.data_value r.OBS_VALUE)
  match t with
  | none => none
  | some ts =>
    if ts = "" then none
    else
      match v with
      | none => none
      | some vs =>
        if vs = "" ∨ vs = "." then none
        else
          match parseYM ts, parseRat vs with
          | some ym, some q => some (monthEnd ym.1 ym.2, some q)
          | _, _ => none

def insertByDate (p : Nat × Option ℚ) : List (Nat × Option ℚ) → List (Nat × Option ℚ)
  | [] => [p]
  | q :: rest => if p.1 ≤ q.1 then p :: q :: rest else q :: insertByDate p rest

/-- pandas `sort_index()`: sort the rows by date. -/
def sortByDate : List (Nat × Option ℚ) → List (Nat × Option ℚ)
  | [] => []
  | p :: rest => insertByDate p (sortByDate rest)

def fredCsvUrl (sid : String) : String :=
  "https://fred.stlouisfed.org/graph/fredgraph.csv?id=" ++ sid

def fredApiUrl (sid key : String) (start : Nat) : String :=
  "https://api.stlouisfed.org/fred/series/observations?series_id=" ++ sid ++
    "&api_key=" ++ key ++ "&file_type=json&observation_start=" ++ toString start

def bokUrl (key : String) (startM endM : Nat) : String :=
  "https://ecos.bok.or.kr/api/StatisticSearch/" ++ key ++ "/json/kr/1/100000/722Y001/M/" ++
    toString startM ++ "/" ++ toString endM ++ "/0101000"

/-- `fetch_yf` over the frame `yf.download` produced: empty download gives
an empty series, otherwise the `Adj Close` column is preferred to `Close`;
a non-empty download offering neither raises a `KeyError`. -/
def fetch_yf (symbol : String) (downloaded : List (String × List (Nat × Option ℚ))) :
    Except Unit Series :=
  if downloaded.all (fun c => c.2.isEmpty) then Except.ok ⟨symbol, []⟩
  else
    let col := if (downloaded.lookup "Adj Close").isSome then "Adj Close" else "Close"
    match downloaded.lookup col with
    | some d => Except.ok ⟨symbol, d⟩
    | none => Except.error ()

/-- `fetch_fred_csv` as in korea_market_dashboard.py lines 57-73: the whole
body sits in `try/except Exception`, so every network, HTTP-status or parse
failure degrades to an empty series. -/
def fetch_fred_csv_main (sid : String) (net : String → Net CsvBody) : Series :=
  match net (fredCsvUrl sid) with
  | Net.fail => ⟨sid, []⟩
  | Net.resp status body =>
    if 400 ≤ status then ⟨sid, []⟩
    else
      match body with
      | CsvBody.badCsv => ⟨sid, []⟩
      | CsvBody.table cols =>
        match cols.lookup "DATE", cols.lookup sid with
        | some dcol, some vcol =>
          match parseDates dcol with
          | none => ⟨sid, []⟩
          | some ds => ⟨sid, ds.zip (vcol.map parseRat)⟩
        | _, _ => ⟨sid, []⟩

/-- `fetch_fred_csv` as in korea_market_dashboard_bokapi.py lines 45-64:
no exception handler, so a raised connection error, a `raise_for_status`
on a non-success status and a `read_csv` or `to_datetime` failure all
propagate to the caller; only the missing-column case returns empty.  The
rows are then restricted to dates at or after `start`. -/
def fetch_fred_csv_bokapi (sid : String) (start : Nat) (net : String → Net CsvBody) :
    Except AdapterErr Series :=
  match net (fredCsvUrl sid) with
  | Net.fail => Except.error AdapterErr.netError
  | Net.resp status body =>
    if 400 ≤ status then Except.error (AdapterErr.httpError status)
    else
      match body with
      | CsvBody.badCsv => Except.error AdapterErr.parseError
      | CsvBody.table cols =>
        match cols.lookup "DATE", cols.lookup sid with
        | some dcol, some vcol =>
          match parseDates dcol with
          | none => Except.error AdapterErr.parseError
          | some ds =>
            Except.ok ⟨sid, (ds.zip (vcol.map parseRat)).filter (fun p => start ≤ p.1)⟩
        | _, _ => Except.ok ⟨sid, []⟩

/-- `fetch_fred_api_json`, korea_market_dashboard.py lines 76-100: an empty
credential short-circuits to an empty series before any request; otherwise
one request is issued and every failure mode is caught and degraded to an
empty series.  The second component counts the HTTP requests issued. -/
def fetch_fred_api_json (sid key : String) (start : Nat)
    (net : String → Net FredApiBody) : Series × Nat :=
  if key = "" then (⟨sid, []⟩, 0)
  else
    match net (fredApiUrl sid key start) with
    | Net.fail => (⟨sid, []⟩, 1)
    | Net.resp status body =>
      if 400 ≤ status then (⟨sid, []⟩, 1)
      else
        match body with
        | FredApiBody.badJson => (⟨sid, []⟩, 1)
        | FredApiBody.json obs =>
          if obs.isEmpty then (⟨sid, []⟩, 1)
          else
            match parseDates (obs.map Prod.fst) with
            | none => (⟨sid, []⟩, 1)
            | some ds =>
              (⟨sid, (ds.zip (obs.map (fun o => parseRat o.2))).filter (fun p => p.2.isSome)⟩, 1)

/-- `fetch_bok_base_rate`, korea_market_dashboard.py lines 106-147: an empty
credential short-circuits to an empty series before any request; otherwise
one request is issued, the first present container alias and the first
present key alias per row are used, invalid rows are skipped and the
result is sorted by date.  All failures degrade to an empty series.  The
second component counts the HTTP requests issued. -/
def fetch_bok_base_rate (key : String) (startM endM : Nat)
    (net : String → Net BokBody) : Series × Nat :=
  if key = "" then (⟨bokRateName, []⟩, 0)
  else
    match net (bokUrl key startM endM) with
    | Net.fail => (⟨bokRateName, []⟩, 1)
    | Net.resp status body =>
      if 400 ≤ status then (⟨bokRateName, []⟩, 1)
      else
        match body with
        | BokBody.badJson => (⟨bokRateName, []⟩, 1)
        | BokBody.json a b c =>
          let rows := ((a.orElse (fun _ => b)).orElse (fun _ => c)).getD []
          let prs := rows.filterMap parseBokRow
          if prs.isEmpty then (⟨bokRateName, []⟩, 1)
          else (⟨bokRateName, sortByDate prs⟩, 1)

/-- `load_us_fed_rate`, korea_market_dashboard.py lines 150-180: try the
four candidates strictly in order (API EFFR, CSV EFFR, API FEDFUNDS,
CSV FEDFUNDS, the API candidates only when a key is supplied), accept the
first whose series is non-empty with a non-missing value, and fall back to
an empty series labelled "unavailable".  The third component records, in
order, which candidate adapters were invoked. -/
def load_us_fed_rate (key : String) (start : Nat)
    (netApi : String → Net FredApiBody) (netCsv : String → Net CsvBody) :
    Series × String × List String :=
  let t1 : List String := if key = "" then [] else ["fetch_fred_api_json EFFR"]
  if key ≠ "" ∧ usable (fetch_fred_api_json "EFFR" key start netApi).1 = true then
    (rename (fetch_fred_api_json "EFFR" key start netApi).1 fedFundsName,
     "EFFR via FRED API (daily)", t1)
  else
    let t2 := t1 ++ ["fetch_fred_csv EFFR"]
    if usable (fetch_fred_csv_main "EFFR" netCsv) = true then
      (rename (fetch_fred_csv_main "EFFR" netCsv) fedFundsName,
       "EFFR via CSV (daily)", t2)
    else
      let t3 := if key = "" then t2 else t2 ++ ["fetch_fred_api_json FEDFUNDS"]
      if key ≠ "" ∧ usable (fetch_fred_api_json "FEDFUNDS" key start netApi).1 = true then
        (rename (fetch_fred_api_json "FEDFUNDS" key start netApi).1 fedFundsName,
         "FEDFUNDS via FRED API (monthly avg)", t3)
      else
        let t4 := t3 ++ ["fetch_fred_csv FEDFUNDS"]
        if usable (fetch_fred_csv_main "FEDFUNDS" netCsv) = true then
          (rename (fetch_fred_csv_main "FEDFUNDS" netCsv) fedFundsName,
           "FEDFUNDS via CSV (monthly avg)", t4)
        else (⟨fedFundsName, []⟩, "unavailable", t4)

/-- A network oracle on which every request raises (connection error). -/
def netFailCsv : String → Net CsvBody := fun _ => Net.fail

def netFailApi : String → Net FredApiBody := fun _ => Net.fail

def netFailBok : String → Net BokBody := fun _ => Net.fail

/-- A network oracle answering every request with the given status and
body. -/
def netResp {β : Type} (code : Nat) (body : β) : String → Net β :=
  fun _ => Net.resp code body

/-- An oracle on which the EFFR API request fails while the FEDFUNDS API
request succeeds with one usable observation. -/
def wNetApi : String → Net FredApiBody :=
  fun u =>
    if u = fredApiUrl "EFFR" "k" 0 then Net.fail
    else Net.resp 200 (FredApiBody.json [("1", "2")])

/-- A rate series whose first in-window observation is on day 2 of the
window [1, 2, 3]. -/
def wRate : Series := ⟨"EFFR", [(2, some 5), (3, some 6)]⟩

/-- A quote series observed only on day 2 of the window [1, 2, 3]. -/
def wQuote : Series := ⟨"^KS11", [(2, some 7)]⟩

def wIdx : List Nat := [1, 2, 3]

/-- A non-empty quote series whose single observation (day 15) lies outside
the window [1, 2, 3]. -/
def wKospiOut : Series := ⟨"^KS11", [(15, some 2)]⟩

def wUsdEmpty : Series := ⟨"KRW=X", []⟩

def wEffrEmpty : Series := ⟨"EFFR", []⟩

def wBokEmpty : Series := ⟨bokRateName, []⟩

/-- A frame with a left-axis column (first value zero, so the rebase guard
leaves it as is) and a rate column. -/
def wDf : Frame := [("KOSPI", [some 0]), (fedFundsName, [some 3])]

/-- A frame whose every column has a non-missing value. -/
def wFrameOkC : Frame := [("KOSPI", [none, some 2]), (bokRateName, [some 3, none])]

/-- A frame whose rate column is entirely missing. -/
def wFrameBadC : Frame := [("KOSPI", [some 2]), (bokRateName, [none])]

theorem getq_lt {α : Type} (l : List α) : ∀ (i : Nat) (x : α), l[i]? = some x → i < l.length := by
  induction l with
  | nil => intro i x h; simp at h
  | cons a t ih =>
    intro i x h
    cases i with
    | zero => simp
    | succ j =>
      simp only [List.getElem?_cons_succ] at h
      have := ih j x h
      simp only [List.length_cons]
      omega

theorem drop_eq_cons {α : Type} (l : List α) :
    ∀ (i : Nat) (x : α), l[i]? = some x → l.drop i = x :: l.drop (i + 1) := by
  induction l with
  | nil => intro i x h; simp at h
  | cons a t ih =>
    intro i x h
    cases i with
    | zero => simp_all
    | succ j =>
      simp only [List.getElem?_cons_succ] at h
      simpa [List.drop_succ_cons] using ih j x h

theorem ffillAux_length : ∀ (l : List (Option ℚ)) (acc : Option ℚ),
    (ffillAux acc l).length = l.length := by
  intro l
  induction l with
  | nil => intro acc; rfl
  | cons a t ih =>
    intro acc
    cases a with
    | none => simp [ffillAux, ih]
    | some v => simp [ffillAux, ih]

theorem ffillAux_get : ∀ (l : List (Option ℚ)) (acc : Option ℚ) (i : Nat), i < l.length →
    (ffillAux acc l)[i]? = some (lastSomeD acc (l.take (i + 1))) := by
  intro l
  induction l with
  | nil => intro acc i h; simp at h
  | cons a t ih =>
    intro acc i h
    cases a with
    | none =>
      cases i with
      | zero => simp [ffillAux, lastSomeD]
      | succ j =>
        have hj : j < t.length := by
          simp only [List.length_cons] at h; omega
        simp only [ffillAux, List.getElem?_cons_succ, List.take_succ_cons, lastSomeD]
        exact ih acc j hj
    | some v =>
      cases i with
      | zero => simp [ffillAux, lastSomeD]
      | succ j =>
        have hj : j < t.length := by
          simp only [List.length_cons] at h; omega
        simp only [ffillAux, List.getElem?_cons_succ, List.take_succ_cons, lastSomeD]
        exact ih (some v) j hj

theorem take_all_none : ∀ (l : List (Option ℚ)) (n : Nat),
    (∀ j, j < n → l[j]? = some none) → ∀ x ∈ l.take n, x = none := by
  intro l
  induction l with
  | nil => intro n h x hx; simp at hx
  | cons a t ih =>
    intro n h x hx
    cases n with
    | zero => simp at hx
    | succ m =>
      simp only [List.take_succ_cons, List.mem_cons] at hx
      cases hx with
      | inl hxa =>
        have h0 := h 0 (Nat.succ_pos m)
        simp only [List.getElem?_cons_zero, Option.some.injEq] at h0
        rw [hxa, h0]
      | inr hxt =>
        exact ih m (fun j hj => by simpa using h (j + 1) (Nat.succ_lt_succ hj)) x hxt

theorem lastSomeD_all_none : ∀ (m : List (Option ℚ)) (acc : Option ℚ),
    (∀ x ∈ m, x = none) → lastSomeD acc m = acc := by
  intro m
  induction m with
  | nil => intro acc _; rfl
  | cons a t ih =>
    intro acc h
    have ha : a = none := h a (by simp)
    subst ha
    exact ih acc (fun x hx => h x (by simp [hx]))

theorem ffillAux_prefix : ∀ (k : Nat) (l : List (Option ℚ)) (acc : Option ℚ) (v : ℚ),
    (∀ j, j < k → l[j]? = some none) → l[k]? = some (some v) →
    (∀ j, j < k → (ffillAux acc l)[j]? = some acc) ∧ (ffillAux acc l)[k]? = some (some v) := by
  intro k
  induction k with
  | zero =>
    intro l acc v _ hk
    cases l with
    | nil => simp at hk
    | cons a t =>
      simp only [List.getElem?_cons_zero, Option.some.injEq] at hk
      subst hk
      exact ⟨fun j hj => absurd hj (Nat.not_lt_zero j), by simp [ffillAux]⟩
  | succ m ih =>
    intro l acc v h1 hk
    cases l with
    | nil => simp at hk
    | cons a t =>
      have h0 : a = none := by
        have := h1 0 (Nat.succ_pos m)
        simpa using this
      subst h0
      simp only [List.getElem?_cons_succ] at hk
      have ht : ∀ j, j < m → t[j]? = some none := fun j hj => by
        simpa using h1 (j + 1) (Nat.succ_lt_succ hj)
      obtain ⟨ih1, ih2⟩ := ih t acc v ht hk
      refine ⟨fun j hj => ?_, ?_⟩
      · cases j with
        | zero => simp [ffillAux]
        | succ i =>
          have hi : i < m := Nat.lt_of_succ_lt_succ hj
          simp only [ffillAux, List.getElem?_cons_succ]
          exact ih1 i hi
      · simp only [ffillAux, List.getElem?_cons_succ]
        exact ih2

theorem bfill_get : ∀ (m : List (Option ℚ)) (i : Nat), i < m.length →
    (bfill m)[i]? = some (firstSomeL (m.drop i)) := by
  intro m
  induction m with
  | nil => intro i h; simp at h
  | cons a t ih =>
    intro i h
    cases i with
    | zero =>
      cases a with
      | none => simp [bfill, firstSomeL]
      | some v => simp [bfill, firstSomeL]
    | succ j =>
      have hj : j < t.length := by
        simp only [List.length_cons] at h; omega
      cases a with
      | none =>
        simp only [bfill, List.getElem?_cons_succ, List.drop_succ_cons]
        exact ih j hj
      | some v =>
        simp only [bfill, List.getElem?_cons_succ, List.drop_succ_cons]
        exact ih j hj

theorem firstSomeL_drop (v : ℚ) : ∀ (d : Nat) (m : List (Option ℚ)) (i : Nat),
    (∀ j, i ≤ j → j < i + d → m[j]? = some none) → m[i + d]? = some (some v) →
    firstSomeL (m.drop i) = some v := by
  intro d
  induction d with
  | zero =>
    intro m i _ hk
    have hd := drop_eq_cons m i (some v) (by simpa using hk)
    rw [hd]
    rfl
  | succ e ih =>
    intro m i h1 hk
    have h0 : m[i]? = some none := h1 i (Nat.le_refl i) (by omega)
    have hd := drop_eq_cons m i none h0
    rw [hd]
    show firstSomeL (m.drop (i + 1)) = some v
    apply ih m (i + 1)
    · intro j hj1 hj2
      exact h1 j (by omega) (by omega)
    · have he : i + 1 + e = i + (e + 1) := by omega
      rw [he]
      exact hk

theorem firstSome_eq_none_iff (col : List (Option ℚ)) :
    firstSome col = none ↔ col.filterMap id = [] := by
  unfold firstSome
  exact List.head?_eq_none_iff

/-- Claim C5 (confirmed): quote-type columns (KOSPI, USD/KRW) are aligned by
`reindex(idx).ffill()` only.  At every position of the aligned window the
value equals the most recent in-window native observation at or before that
day (`lastSome` of the reindexed prefix), and in particular every day
strictly before the first native observation stays missing: no backward
fill, no look-ahead. -/
theorem quote_ffill_only (s : Series) (idx : List Nat) (i : Nat) (h : i < idx.length) :
    (alignFfill s idx)[i]? = some (lastSome ((reindexS s idx).take (i + 1))) ∧
    ((∀ j, j ≤ i → (reindexS s idx)[j]? = some none) → (alignFfill s idx)[i]? = some none) := by
  have hlen : (reindexS s idx).length = idx.length := by simp [reindexS]
  have h1 : i < (reindexS s idx).length := by omega
  have main := ffillAux_get (reindexS s idx) none i h1
  constructor
  · simpa [alignFfill, ffill, lastSome] using main
  · intro hall
    have hnone : ∀ x ∈ (reindexS s idx).take (i + 1), x = none :=
      take_all_none _ (i + 1) (fun j hj => hall j (Nat.lt_succ_iff.mp hj))
    have hz := lastSomeD_all_none _ none hnone
    simp only [alignFfill, ffill]
    rw [main, hz]

/-- Witness for C5: the quote series observed only on day 2 of the window
[1, 2, 3] carries that observation on day 3, the most recent prior one. -/
theorem quote_ffill_only_witness :
    (alignFfill wQuote wIdx)[2]? = some (lastSome ((reindexS wQuote wIdx).take 3)) ∧
    lastSome ((reindexS wQuote wIdx).take 3) = some 7 :=
  ⟨(quote_ffill_only wQuote wIdx 2 (by decide)).1, by rfl⟩

/-- Counterexample for claim C4: korea_market_dashboard_bokapi.py (line 128)
aligns the US Fed Funds series with forward fill only, so in the window
[1, 2, 3] a series first observed on day 2 leaves day 1 missing instead of
carrying the day-2 value, contradicting the claim that the high-resolution
rate series is aligned with forward AND backward fill everywhere. -/
theorem rate_bfill_cex :
    alignFfill wRate wIdx = [none, some 5, some 6] ∧
    ([none, some 5, some 6] : List (Option ℚ))[0]? ≠ some (some 5) := by
  exact ⟨rfl, by decide⟩

/-- Claim C4 (amended): where the US Fed Funds column is aligned with
`reindex.ffill().bfill()` (korea_market_dashboard.py line 206,
korea_market_dashboard_bokapi_v2.py lines 219-220), every day before the
first in-window native observation (day k, value v) carries exactly v; in
korea_market_dashboard_bokapi.py (line 128) the same column is aligned with
forward fill only and those days remain missing. -/
theorem rate_fill_policy_amended (s : Series) (idx : List Nat) (k : Nat) (v : ℚ)
    (h1 : ∀ j, j < k → (reindexS s idx)[j]? = some none)
    (h2 : (reindexS s idx)[k]? = some (some v)) :
    (∀ i, i < k → (alignBoth s idx)[i]? = some (some v)) ∧
    (∀ i, i < k → (alignFfill s idx)[i]? = some none) := by
  obtain ⟨p1, p2⟩ := ffillAux_prefix k (reindexS s idx) none v h1 h2
  have hklen : k < (reindexS s idx).length := getq_lt _ k (some v) h2
  have hffl : (ffillAux none (reindexS s idx)).length = (reindexS s idx).length :=
    ffillAux_length _ none
  constructor
  · intro i hi
    have hi2 : i < (ffillAux none (reindexS s idx)).length := by omega
    have hb := bfill_get (ffillAux none (reindexS s idx)) i hi2
    have hfs : firstSomeL ((ffillAux none (reindexS s idx)).drop i) = some v := by
      apply firstSomeL_drop v (k - i) (ffillAux none (reindexS s idx)) i
      · intro j hj1 hj2
        exact p1 j (by omega)
      · have he : i + (k - i) = k := by omega
        rw [he]
        exact p2
    simp only [alignBoth, ffill]
    rw [hb, hfs]
  · intro i hi
    simp only [alignFfill, ffill]
    exact p1 i hi

/-- Witness for C4 (amended): on the window [1, 2, 3] with first observation
on day 2 (value 5), the ffill+bfill alignment gives day 1 the value 5 while
the ffill-only alignment leaves day 1 missing. -/
theorem rate_fill_policy_amended_witness :
    (alignBoth wRate wIdx)[0]? = some (some 5) ∧ (alignFfill wRate wIdx)[0]? = some none :=
  ⟨(rate_fill_policy_amended wRate wIdx 1 5 (by decide) (by decide)).1 0 (by decide),
   (rate_fill_policy_amended wRate wIdx 1 5 (by decide) (by decide)).2 0 (by decide)⟩

/-- Claim C7 (confirmed): each authenticated adapter called with an empty
credential returns an empty series immediately and issues zero HTTP
requests, for every series identifier, start date and network behaviour. -/
theorem credential_short_circuit (sid : String) (start startM endM : Nat)
    (netA : String → Net FredApiBody) (netB : String → Net BokBody) :
    fetch_fred_api_json sid "" start netA = (⟨sid, []⟩, 0) ∧
    fetch_bok_base_rate "" startM endM netB = (⟨bokRateName, []⟩, 0) := by
  exact ⟨rfl, rfl⟩

/-- Witness for C7 at a concrete identifier and a failing network. -/
theorem credential_short_circuit_witness :
    fetch_fred_api_json "EFFR" "" 0 netFailApi = (⟨"EFFR", []⟩, 0) ∧
    fetch_bok_base_rate "" 0 0 netFailBok = (⟨bokRateName, []⟩, 0) :=
  credential_short_circuit "EFFR" 0 0 0 netFailApi netFailBok

/-- Counterexample for claim C3: `fetch_fred_csv` in
korea_market_dashboard_bokapi.py has no exception handler, so a raised
connection error propagates to the caller instead of degrading to an empty
series. -/
theorem csv_bokapi_propagates_cex :
    fetch_fred_csv_bokapi "EFFR" 0 netFailCsv = Except.error AdapterErr.netError ∧
    okB (fetch_fred_csv_bokapi "EFFR" 0 netFailCsv) = false := by
  exact ⟨rfl, rfl⟩

/-- Claim C3 (amended): the adapters of korea_market_dashboard.py
(`fetch_fred_csv`, `fetch_fred_api_json`, `fetch_bok_base_rate`) each
absorb every failure mode at their boundary — a raised connection error or
timeout, every non-success HTTP status (any code at least 400) and an
unparseable response body — returning an empty series, and `fetch_yf`
returns an empty series for an empty download; but `fetch_fred_csv` in
korea_market_dashboard_bokapi.py propagates those three failure modes to
its caller, and among its failure modes only the missing-expected-columns
one (a parsed table lacking the DATE column or the requested series
column) returns an empty series. -/
theorem adapters_absorb_amended (sid key : String) (start startM endM code : Nat)
    (hcode : 400 ≤ code)
    (cols : List (String × List String))
    (hcols : cols.lookup "DATE" = none ∨ cols.lookup sid = none) :
    (fetch_fred_csv_main sid netFailCsv).data = [] ∧
    (fetch_fred_csv_main sid (netResp code CsvBody.badCsv)).data = [] ∧
    (fetch_fred_csv_main sid (netResp 200 CsvBody.badCsv)).data = [] ∧
    (fetch_fred_api_json sid key start netFailApi).1.data = [] ∧
    (fetch_fred_api_json sid key start (netResp code FredApiBody.badJson)).1.data = [] ∧
    (fetch_fred_api_json sid key start (netResp 200 FredApiBody.badJson)).1.data = [] ∧
    (fetch_bok_base_rate key startM endM netFailBok).1.data = [] ∧
    (fetch_bok_base_rate key startM endM (netResp code BokBody.badJson)).1.data = [] ∧
    (fetch_bok_base_rate key startM endM (netResp 200 BokBody.badJson)).1.data = [] ∧
    fetch_yf sid [] = Except.ok ⟨sid, []⟩ ∧
    fetch_fred_csv_bokapi sid start netFailCsv = Except.error AdapterErr.netError ∧
    fetch_fred_csv_bokapi sid start (netResp code CsvBody.badCsv) =
      Except.error (AdapterErr.httpError code) ∧
    fetch_fred_csv_bokapi sid start (netResp 200 CsvBody.badCsv) =
      Except.error AdapterErr.parseError ∧
    fetch_fred_csv_bokapi sid start (netResp 200 (CsvBody.table cols)) =
      Except.ok ⟨sid, []⟩ := by
  refine ⟨rfl, ?_, rfl, ?_, ?_, ?_, ?_, ?_, ?_, rfl, rfl, ?_, rfl, ?_⟩
  · by_cases h4 : 400 ≤ code <;> simp [fetch_fred_csv_main, netResp, h4]
  · by_cases hk : key = "" <;> simp [fetch_fred_api_json, hk, netFailApi]
  · by_cases hk : key = "" <;> by_cases h4 : 400 ≤ code <;>
      simp [fetch_fred_api_json, hk, netResp, h4]
  · by_cases hk : key = "" <;> simp [fetch_fred_api_json, hk, netResp]
  · by_cases hk : key = "" <;> simp [fetch_bok_base_rate, hk, netFailBok]
  · by_cases hk : key = "" <;> by_cases h4 : 400 ≤ code <;>
      simp [fetch_bok_base_rate, hk, netResp, h4]
  · by_cases hk : key = "" <;> simp [fetch_bok_base_rate, hk, netResp]
  · simp [fetch_fred_csv_bokapi, netResp, if_pos hcode]
  · rcases hcols with h | h
    · simp [fetch_fred_csv_bokapi, netResp, h]
    · cases hd : cols.lookup "DATE" with
      | none => simp [fetch_fred_csv_bokapi, netResp, hd]
      | some dcol => simp [fetch_fred_csv_bokapi, netResp, hd, h]

/-- Witness for C3 (amended) at concrete identifiers, dates, status 500
and a table carrying neither the DATE column nor the series column. -/
theorem adapters_absorb_amended_witness :
    (fetch_fred_csv_main "EFFR" netFailCsv).data = [] ∧
    (fetch_fred_csv_main "EFFR" (netResp 500 CsvBody.badCsv)).data = [] ∧
    (fetch_fred_csv_main "EFFR" (netResp 200 CsvBody.badCsv)).data = [] ∧
    (fetch_fred_api_json "EFFR" "k" 0 netFailApi).1.data = [] ∧
    (fetch_fred_api_json "EFFR" "k" 0 (netResp 500 FredApiBody.badJson)).1.data = [] ∧
    (fetch_fred_api_json "EFFR" "k" 0 (netResp 200 FredApiBody.badJson)).1.data = [] ∧
    (fetch_bok_base_rate "k" 0 0 netFailBok).1.data = [] ∧
    (fetch_bok_base_rate "k" 0 0 (netResp 500 BokBody.badJson)).1.data = [] ∧
    (fetch_bok_base_rate "k" 0 0 (netResp 200 BokBody.badJson)).1.data = [] ∧
    fetch_yf "EFFR" [] = Except.ok ⟨"EFFR", []⟩ ∧
    fetch_fred_csv_bokapi "EFFR" 0 netFailCsv = Except.error AdapterErr.netError ∧
    fetch_fred_csv_bokapi "EFFR" 0 (netResp 500 CsvBody.badCsv) =
      Except.error (AdapterErr.httpError 500) ∧
    fetch_fred_csv_bokapi "EFFR" 0 (netResp 200 CsvBody.badCsv) =
      Except.error AdapterErr.parseError ∧
    fetch_fred_csv_bokapi "EFFR" 0 (netResp 200 (CsvBody.table [("OTHER", [])])) =
      Except.ok ⟨"EFFR", []⟩ :=
  adapters_absorb_amended "EFFR" "k" 0 0 0 500 (by decide) [("OTHER", [])]
    (Or.inl (by decide))

/-- Counterexample for claim C6: the single-axis dashboards
(korea_market_dashboard_bokapi.py lines 142-146 and _v2.py lines 241-245)
run the normalization loop over every column of `plot_df`, so a rate
column [2, 3] is rescaled to [100, 150] rather than left identical. -/
theorem normalize_touches_rate_cex :
    normalizeAll [(fedFundsName, [some 2, some 3])] =
      Except.ok [(fedFundsName, [some 100, some 150])] ∧
    ([some (100 : ℚ), some 150] ≠ [some 2, some 3]) := by
  constructor
  · norm_num [normalizeAll, rebaseCol, firstSome]
  · decide

/-- Claim C6 (amended): in the dual-axis dashboard
(korea_market_dashboard.py) normalization produces `left_df` from the
KOSPI / USD-KRW columns only and the right-axis frame is read from the
untouched `df`, so rate columns are identical before and after whatever
the flag; but in the single-axis dashboards (bokapi, bokapi_v2) the
normalization loop rescales every column, rate columns included. -/
theorem normalize_scope_amended :
    (∀ (nl : Bool) (df : Frame) (rc : List String) (out : Frame × Frame),
      plot_frames nl df rc = Except.ok out → out.2 = selectCols df rc) ∧
    normalizeAll [(bokRateName, [some 2, some 3])] =
      Except.ok [(bokRateName, [some 100, some 150])] := by
  constructor
  · intro nl df rc out h
    simp only [plot_frames] at h
    split at h
    · split at h
      · exact absurd h (by simp)
      · injection h with h2
        rw [← h2]
    · injection h with h2
      rw [← h2]
  · norm_num [normalizeAll, rebaseCol, firstSome]

/-- Witness for C6 (amended): with normalization on, the right-axis frame
of the dual-axis pipeline is still the raw rate column of `df`. -/
theorem normalize_scope_amended_witness :
    (([("KOSPI", [some (0 : ℚ)])], [(fedFundsName, [some (3 : ℚ)])]) : Frame × Frame).2 =
      selectCols wDf [fedFundsName] :=
  normalize_scope_amended.1 true wDf [fedFundsName]
    ([("KOSPI", [some 0])], [(fedFundsName, [some 3])]) (by rfl)

/-- Claim C8 (confirmed): the rebasing step maps each value x of a column to
x / first-non-missing * 100, sending [50, 100, 150] to [100, 200, 300], and
leaves a column whose first non-missing value is exactly zero completely
unchanged (the divide-by-zero guard `if fv != 0`). -/
theorem rebase_formula :
    (∀ col : List (Option ℚ), firstSome col = some 0 → rebaseCol col = Except.ok col) ∧
    rebaseCol [some 50, some 100, some 150] =
      Except.ok [some 100, some 200, some 300] := by
  constructor
  · intro col h
    unfold rebaseCol
    rw [h]
    simp
  · norm_num [rebaseCol, firstSome]

/-- Witness for C8 at a column starting with zero. -/
theorem rebase_formula_witness :
    rebaseCol [some 0, some 7] = Except.ok [some 0, some 7] :=
  rebase_formula.1 [some 0, some 7] (by rfl)

/-- Claim C10 (confirmed): the normalization loop reads
`dropna().iloc[0]` without guarding its existence.  It returns a table
whenever every column holds at least one non-missing value, and raises an
unhandled `IndexError` (the `error` outcome) whenever any column of the
frame it iterates over is entirely missing. -/
theorem normalize_partiality (f : Frame) :
    ((∀ c ∈ f, c.2.filterMap id ≠ []) → okB (normalizeAll f) = true) ∧
    ((∃ c ∈ f, c.2.filterMap id = []) → normalizeAll f = Except.error ()) := by
  induction f with
  | nil =>
    constructor
    · intro _; rfl
    · intro h; simp at h
  | cons c rest ih =>
    obtain ⟨nm, col⟩ := c
    constructor
    · intro h
      have hc : col.filterMap id ≠ [] := by
        have := h (nm, col) (List.mem_cons_self _ _)
        simpa using this
      have hrest := ih.1 (fun d hd => h d (List.mem_cons_of_mem _ hd))
      unfold normalizeAll
      cases hfs : firstSome col with
      | none => exact absurd ((firstSome_eq_none_iff col).mp hfs) hc
      | some fv =>
        simp only [rebaseCol, hfs]
        cases hna : normalizeAll rest with
        | error e =>
          rw [hna] at hrest
          simp [okB] at hrest
        | ok r2 =>
          simp [hna, okB]
    · intro h
      rcases h with ⟨d, hd, hdm⟩
      rcases List.mem_cons.mp hd with hdc | hdr
      · have hcol : col.filterMap id = [] := by
          rw [hdc] at hdm
          simpa using hdm
        have hfs : firstSome col = none := (firstSome_eq_none_iff col).mpr hcol
        unfold normalizeAll
        simp only [rebaseCol, hfs]
      · unfold normalizeAll
        cases hfs : firstSome col with
        | none => simp only [rebaseCol, hfs]
        | some fv =>
          simp only [rebaseCol, hfs, ih.2 ⟨d, hdr, hdm⟩]

/-- Witness for C10: the loop succeeds on a frame whose columns all hold a
value, and raises on a frame with an all-missing rate column. -/
theorem normalize_partiality_witness :
    okB (normalizeAll wFrameOkC) = true ∧ normalizeAll wFrameBadC = Except.error () :=
  ⟨(normalize_partiality wFrameOkC).1 (by decide),
   (normalize_partiality wFrameBadC).2 (by decide)⟩

/-- Counterexample for claim C9: a non-empty KOSPI series whose only
observation (day 15) lies outside the window [1, 2, 3] still produces a
"KOSPI" column, and that column is entirely missing — the series is not
omitted even though it has zero observations inside the window. -/
theorem window_column_cex :
    buildFrame wKospiOut wUsdEmpty wEffrEmpty wBokEmpty wIdx =
      [("KOSPI", [none, none, none])] ∧
    (reindexS wKospiOut wIdx).all (fun o => o.isNone) = true := by
  exact ⟨rfl, rfl⟩

/-- Claim C9 (amended): in korea_market_dashboard.py a column is included
iff its raw series is non-empty (KOSPI, USD/KRW, BOK base rate) — with no
check that any observation falls inside the window — while the US Fed
Funds column alone additionally requires the filled in-window column to
hold a non-missing value.  A non-empty quote or BOK series with zero
in-window observations therefore appears as an all-missing column rather
than being omitted. -/
theorem frame_columns_amended (k u e b : Series) (idx : List Nat) :
    ("KOSPI" ∈ (buildFrame k u e b idx).map Prod.fst ↔ k.data ≠ []) ∧
    ("USD/KRW" ∈ (buildFrame k u e b idx).map Prod.fst ↔ u.data ≠ []) ∧
    (fedFundsName ∈ (buildFrame k u e b idx).map Prod.fst ↔
      e.data ≠ [] ∧ (alignBoth e idx).any (fun o => o.isSome) = true) ∧
    (bokRateName ∈ (buildFrame k u e b idx).map Prod.fst ↔ b.data ≠ []) := by
  have hmem : ∀ (c : Bool) (nm nm2 : String) (v : List (Option ℚ)),
      (nm2 ∈ (colIf c nm v).map Prod.fst ↔ c = true ∧ nm2 = nm) := by
    intro c nm nm2 v
    cases c <;> simp [colIf]
  simp only [buildFrame, List.map_append, List.mem_append, hmem]
  refine ⟨?_, ?_, ?_, ?_⟩ <;>
    simp [fedFundsName, bokRateName, List.isEmpty_iff, Bool.and_eq_true]

/-- Witness for C9 (amended) at the concrete counterexample inputs. -/
theorem frame_columns_amended_witness :
    ("KOSPI" ∈ (buildFrame wKospiOut wUsdEmpty wEffrEmpty wBokEmpty wIdx).map Prod.fst ↔
      wKospiOut.data ≠ []) ∧
    ("USD/KRW" ∈ (buildFrame wKospiOut wUsdEmpty wEffrEmpty wBokEmpty wIdx).map Prod.fst ↔
      wUsdEmpty.data ≠ []) ∧
    (fedFundsName ∈ (buildFrame wKospiOut wUsdEmpty wEffrEmpty wBokEmpty wIdx).map Prod.fst ↔
      wEffrEmpty.data ≠ [] ∧ (alignBoth wEffrEmpty wIdx).any (fun o => o.isSome) = true) ∧
    (bokRateName ∈ (buildFrame wKospiOut wUsdEmpty wEffrEmpty wBokEmpty wIdx).map Prod.fst ↔
      wBokEmpty.data ≠ []) :=
  frame_columns_amended wKospiOut wUsdEmpty wEffrEmpty wBokEmpty wIdx

/-- Claim C1 (confirmed): with a credential present (four candidates), when
the first two candidates (API EFFR, CSV EFFR) are empty or all-missing and
the third (API FEDFUNDS) holds a non-missing value, `load_us_fed_rate`
returns the third candidate's series (renamed for display) with the label
identifying it, and the fourth candidate adapter is never invoked. -/
theorem fallback_priority_third (key : String) (start : Nat)
    (netApi : String → Net FredApiBody) (netCsv : String → Net CsvBody)
    (hk : key ≠ "")
    (h1 : usable (fetch_fred_api_json "EFFR" key start netApi).1 = false)
    (h2 : usable (fetch_fred_csv_main "EFFR" netCsv) = false)
    (h3 : usable (fetch_fred_api_json "FEDFUNDS" key start netApi).1 = true) :
    load_us_fed_rate key start netApi netCsv =
      (rename (fetch_fred_api_json "FEDFUNDS" key start netApi).1 fedFundsName,
       "FEDFUNDS via FRED API (monthly avg)",
       ["fetch_fred_api_json EFFR", "fetch_fred_csv EFFR", "fetch_fred_api_json FEDFUNDS"]) ∧
    "fetch_fred_csv FEDFUNDS" ∉ (load_us_fed_rate key start netApi netCsv).2.2 := by
  have hn1 : ¬(key ≠ "" ∧ usable (fetch_fred_api_json "EFFR" key start netApi).1 = true) :=
    fun hc => absurd (hc.2.symm.trans h1) (by decide)
  have hn2 : ¬(usable (fetch_fred_csv_main "EFFR" netCsv) = true) :=
    fun hc => absurd (hc.symm.trans h2) (by decide)
  have hc3 : key ≠ "" ∧ usable (fetch_fred_api_json "FEDFUNDS" key start netApi).1 = true :=
    ⟨hk, h3⟩
  have hmain : load_us_fed_rate key start netApi netCsv =
      (rename (fetch_fred_api_json "FEDFUNDS" key start netApi).1 fedFundsName,
       "FEDFUNDS via FRED API (monthly avg)",
       ["fetch_fred_api_json EFFR", "fetch_fred_csv EFFR", "fetch_fred_api_json FEDFUNDS"]) := by
    simp only [load_us_fed_rate, if_neg hn1, if_neg hn2, if_pos hc3, if_neg hk]
    rfl
  refine ⟨hmain, ?_⟩
  rw [hmain]
  show "fetch_fred_csv FEDFUNDS" ∉
    ["fetch_fred_api_json EFFR", "fetch_fred_csv EFFR", "fetch_fred_api_json FEDFUNDS"]
  decide

/-- Witness for C1: a network on which the EFFR API call fails, every CSV
call fails, and the FEDFUNDS API call returns one usable observation. -/
theorem fallback_priority_third_witness :
    load_us_fed_rate "k" 0 wNetApi netFailCsv =
      (rename (fetch_fred_api_json "FEDFUNDS" "k" 0 wNetApi).1 fedFundsName,
       "FEDFUNDS via FRED API (monthly avg)",
       ["fetch_fred_api_json EFFR", "fetch_fred_csv EFFR", "fetch_fred_api_json FEDFUNDS"]) ∧
    "fetch_fred_csv FEDFUNDS" ∉ (load_us_fed_rate "k" 0 wNetApi netFailCsv).2.2 :=
  fallback_priority_third "k" 0 wNetApi netFailCsv (by decide) (by decide) (by decide)
    (by decide)

/-- Claim C2 (confirmed): when every candidate of `load_us_fed_rate` is
empty or all-missing, the resolver returns the empty US Fed Funds series
paired with exactly the sentinel label "unavailable"; being a total
function, it raises no exception. -/
theorem fallback_unavailable (key : String) (start : Nat)
    (netApi : String → Net FredApiBody) (netCsv : String → Net CsvBody)
    (h1 : usable (fetch_fred_api_json "EFFR" key start netApi).1 = false)
    (h2 : usable (fetch_fred_csv_main "EFFR" netCsv) = false)
    (h3 : usable (fetch_fred_api_json "FEDFUNDS" key start netApi).1 = false)
    (h4 : usable (fetch_fred_csv_main "FEDFUNDS" netCsv) = false) :
    (load_us_fed_rate key start netApi netCsv).1 = ⟨fedFundsName, []⟩ ∧
    (load_us_fed_rate key start netApi netCsv).2.1 = "unavailable" := by
  have hn1 : ¬(key ≠ "" ∧ usable (fetch_fred_api_json "EFFR" key start netApi).1 = true) :=
    fun hc => absurd (hc.2.symm.trans h1) (by decide)
  have hn2 : ¬(usable (fetch_fred_csv_main "EFFR" netCsv) = true) :=
    fun hc => absurd (hc.symm.trans h2) (by decide)
  have hn3 : ¬(key ≠ "" ∧ usable (fetch_fred_api_json "FEDFUNDS" key start netApi).1 = true) :=
    fun hc => absurd (hc.2.symm.trans h3) (by decide)
  have hn4 : ¬(usable (fetch_fred_csv_main "FEDFUNDS" netCsv) = true) :=
    fun hc => absurd (hc.symm.trans h4) (by decide)
  simp only [load_us_fed_rate, if_neg hn1, if_neg hn2, if_neg hn3, if_neg hn4]
  constructor <;> trivial

/-- Witness for C2: no credential and a network on which every request
raises, so all candidates come back empty. -/
theorem fallback_unavailable_witness :
    (load_us_fed_rate "" 0 netFailApi netFailCsv).1 = ⟨fedFundsName, []⟩ ∧
    (load_us_fed_rate "" 0 netFailApi netFailCsv).2.1 = "unavailable" :=
  fallback_unavailable "" 0 netFailApi netFailCsv (by decide) (by decide) (by decide)
    (by decide)
